import Mathlib

/-
Verification of the cs6450-labs key-value store benchmark suite.

Shallow embedding of:
  - the Xorshift64 PRNG and the Zipfian workload generator (kvs/loadgen.go),
  - the sharded KV server: fnvHash, GetShardIndex, Get, Put, Process_Batch
    (kvs/server/main.go) over the wire types of kvs/proto.go,
  - the client's retry wrapper Send_Synch_Batch and generateRequestID
    (kvs/client/main.go).

Conventions:
  - Go uint64 / uint32 arithmetic is modelled on Nat with explicit `% 2^64`
    (resp. `% 2^32`) where overflow can occur; Go int64 is modelled on Int.
  - Go strings used as map keys are modelled as their byte sequences
    (List Nat, each element a byte value); stored values stay Lean Strings.
  - time.Time / time.Duration are modelled as Nat nanosecond counts; each
    call to time.Now() is an explicit `now` argument (for a batch, a
    function from operation index to the time observed at that step).
  - float64 arithmetic in the Zipfian generator is idealized as exact
    rational arithmetic, with math.Pow passed as an abstract function
    pow : Rat -> Rat -> Rat, since the claims under examination concern the
    algebraic structure of the computation and not IEEE rounding.
-/

/-! ## Xorshift64 PRNG (kvs/loadgen.go, NewXorshift64 / Xorshift64.Uint64) -/

structure Xorshift64 where
  a : Nat
  deriving Repr, DecidableEq

/-- NewXorshift64: seed 0 is replaced by 1 (state must be non-zero). -/
def NewXorshift64 (seed : Nat) : Xorshift64 :=
  if seed = 0 then { a := 1 } else { a := seed }

/-- One xorshift step on a 64-bit word: x ^= x<<13; x ^= x>>7; x ^= x<<17.
Left shifts are reduced mod 2^64 as Go's uint64 arithmetic does. -/
def xorshiftStep (x : Nat) : Nat :=
  let x1 := x ^^^ ((x <<< 13) % 2 ^ 64)
  let x2 := x1 ^^^ (x1 >>> 7)
  x2 ^^^ ((x2 <<< 17) % 2 ^ 64)

/-- Xorshift64.Uint64 returns the new state and stores it back. -/
def Xorshift64.Uint64 (rng : Xorshift64) : Nat × Xorshift64 :=
  let x := xorshiftStep rng.a
  (x, { a := x })

/-- State of the generator after k calls to Uint64. -/
def xorshiftIter (rng : Xorshift64) : Nat → Xorshift64
  | 0 => rng
  | k + 1 => (Xorshift64.Uint64 (xorshiftIter rng k)).2

/-- Value returned by the (k+1)-st call to Uint64. -/
def xorshiftOutput (rng : Xorshift64) (k : Nat) : Nat :=
  (Xorshift64.Uint64 (xorshiftIter rng k)).1

/-! ### Xorshift64 invariants -/

lemma xorshl_eq_zero {k x : Nat} (hk : 0 < k) (hx : x < 2 ^ 64)
    (h : x ^^^ ((x <<< k) % 2 ^ 64) = 0) : x = 0 := by
  have hx2 : x = (x <<< k) % 2 ^ 64 := Nat.xor_eq_zero.mp h
  have hbit : ∀ i, x.testBit i = false := by
    intro i
    induction i using Nat.strong_induction_on with
    | _ i ih =>
      by_cases h64 : i < 64
      · have hti : x.testBit i = ((x <<< k) % 2 ^ 64).testBit i := by
          rw [← hx2]
        rw [Nat.testBit_mod_two_pow, Nat.testBit_shiftLeft] at hti
        by_cases hk2 : k ≤ i
        · have hl : i - k < i := Nat.sub_lt_self hk hk2
          rw [ih (i - k) hl] at hti
          simpa using hti
        · rw [hti]
          simp [hk2]
      · exact Nat.testBit_lt_two_pow
          (lt_of_lt_of_le hx (Nat.pow_le_pow_right (by norm_num) (le_of_not_lt h64)))
  exact Nat.eq_of_testBit_eq fun i => by rw [hbit i, Nat.zero_testBit]

lemma xorshr_eq_zero {k x : Nat} (hk : 0 < k) (h : x ^^^ (x >>> k) = 0) : x = 0 := by
  have hx2 : x = x >>> k := Nat.xor_eq_zero.mp h
  by_contra hne
  have hpos : 0 < x := Nat.pos_of_ne_zero hne
  have hlt : x / 2 ^ k < x :=
    Nat.div_lt_self hpos (Nat.one_lt_pow hk.ne' (by norm_num))
  rw [Nat.shiftRight_eq_div_pow] at hx2
  omega

lemma xorshiftStep_lt {x : Nat} (hx : x < 2 ^ 64) : xorshiftStep x < 2 ^ 64 := by
  unfold xorshiftStep
  have h1 : x ^^^ ((x <<< 13) % 2 ^ 64) < 2 ^ 64 :=
    Nat.xor_lt_two_pow hx (Nat.mod_lt _ (by norm_num))
  have h2 : (x ^^^ ((x <<< 13) % 2 ^ 64)) ^^^ ((x ^^^ ((x <<< 13) % 2 ^ 64)) >>> 7) < 2 ^ 64 := by
    refine Nat.xor_lt_two_pow h1 ?_
    rw [Nat.shiftRight_eq_div_pow]
    exact lt_of_le_of_lt (Nat.div_le_self _ _) h1
  exact Nat.xor_lt_two_pow h2 (Nat.mod_lt _ (by norm_num))

lemma xorshiftStep_ne_zero {x : Nat} (hx : x ≠ 0) (hlt : x < 2 ^ 64) :
    xorshiftStep x ≠ 0 := by
  intro h0
  have h0' : ((x ^^^ ((x <<< 13) % 2 ^ 64)) ^^^ ((x ^^^ ((x <<< 13) % 2 ^ 64)) >>> 7)) ^^^
      ((((x ^^^ ((x <<< 13) % 2 ^ 64)) ^^^ ((x ^^^ ((x <<< 13) % 2 ^ 64)) >>> 7)) <<< 17) % 2 ^ 64)
      = 0 := h0
  have hlt1 : x ^^^ ((x <<< 13) % 2 ^ 64) < 2 ^ 64 :=
    Nat.xor_lt_two_pow hlt (Nat.mod_lt _ (by norm_num))
  have hlt2 : (x ^^^ ((x <<< 13) % 2 ^ 64)) ^^^ ((x ^^^ ((x <<< 13) % 2 ^ 64)) >>> 7) < 2 ^ 64 := by
    refine Nat.xor_lt_two_pow hlt1 ?_
    rw [Nat.shiftRight_eq_div_pow]
    exact lt_of_le_of_lt (Nat.div_le_self _ _) hlt1
  have h2 := xorshl_eq_zero (by norm_num) hlt2 h0'
  have h1 := xorshr_eq_zero (k := 7) (by norm_num) h2
  exact hx (xorshl_eq_zero (by norm_num) hlt h1)

lemma xorshiftIter_invariant (rng : Xorshift64) (h0 : rng.a ≠ 0) (hlt : rng.a < 2 ^ 64) :
    ∀ k, (xorshiftIter rng k).a ≠ 0 ∧ (xorshiftIter rng k).a < 2 ^ 64 := by
  intro k
  induction k with
  | zero => exact ⟨h0, hlt⟩
  | succ k ih =>
    have : (xorshiftIter rng (k + 1)).a = xorshiftStep (xorshiftIter rng k).a := rfl
    rw [this]
    exact ⟨xorshiftStep_ne_zero ih.1 ih.2, xorshiftStep_lt ih.2⟩

/-- Claim C5: two Xorshift64 generators constructed with the same non-zero
seed produce identical output sequences, and constructing with seed 0 yields
the same generator as constructing with seed 1. -/
theorem claim_C5 (seed : Nat) (g1 g2 : Xorshift64) (_hs : seed ≠ 0)
    (h1 : g1 = NewXorshift64 seed) (h2 : g2 = NewXorshift64 seed) :
    (∀ k, xorshiftOutput g1 k = xorshiftOutput g2 k) ∧
      NewXorshift64 0 = NewXorshift64 1 := by
  subst h1; subst h2
  exact ⟨fun _ => rfl, by simp [NewXorshift64]⟩

theorem claim_C5_witness :
    (5 ≠ 0) ∧
      ((∀ k, xorshiftOutput (NewXorshift64 5) k = xorshiftOutput (NewXorshift64 5) k) ∧
        NewXorshift64 0 = NewXorshift64 1) :=
  ⟨by decide, claim_C5 5 (NewXorshift64 5) (NewXorshift64 5) (by decide) rfl rfl⟩

/-- Claim C9: non-zero state is an invariant of Xorshift64: construction
establishes it for every seed, each step preserves it together with the
64-bit bound, the returned value is the new state, and no iterated sequence
of calls reaches state 0 or returns 0. -/
theorem claim_C9 (seed x : Nat) (hx : x ≠ 0) (hxlt : x < 2 ^ 64) :
    (NewXorshift64 seed).a ≠ 0 ∧
      (xorshiftStep x ≠ 0 ∧ xorshiftStep x < 2 ^ 64) ∧
      (Xorshift64.Uint64 { a := x }).1 = (Xorshift64.Uint64 { a := x }).2.a ∧
      (seed < 2 ^ 64 → ∀ k, (xorshiftIter (NewXorshift64 seed) k).a ≠ 0 ∧
        xorshiftOutput (NewXorshift64 seed) k ≠ 0) := by
  refine ⟨?_, ⟨xorshiftStep_ne_zero hx hxlt, xorshiftStep_lt hxlt⟩, rfl, ?_⟩
  · unfold NewXorshift64
    split <;> simp_all
  · intro hseed k
    have hstart0 : (NewXorshift64 seed).a ≠ 0 := by
      unfold NewXorshift64; split <;> simp_all
    have hstartlt : (NewXorshift64 seed).a < 2 ^ 64 := by
      unfold NewXorshift64
      split
      · norm_num
      · exact hseed
    have hinv := xorshiftIter_invariant (NewXorshift64 seed) hstart0 hstartlt
    refine ⟨(hinv k).1, ?_⟩
    have houtstate : xorshiftOutput (NewXorshift64 seed) k =
        (xorshiftIter (NewXorshift64 seed) (k + 1)).a := rfl
    rw [houtstate]
    exact (hinv (k + 1)).1

theorem claim_C9_witness :
    (3 ≠ 0 ∧ 3 < 2 ^ 64) ∧
      ((NewXorshift64 0).a ≠ 0 ∧
        (xorshiftStep 3 ≠ 0 ∧ xorshiftStep 3 < 2 ^ 64) ∧
        (Xorshift64.Uint64 { a := 3 }).1 = (Xorshift64.Uint64 { a := 3 }).2.a ∧
        (0 < 2 ^ 64 → ∀ k, (xorshiftIter (NewXorshift64 0) k).a ≠ 0 ∧
          xorshiftOutput (NewXorshift64 0) k ≠ 0)) :=
  ⟨by decide, claim_C9 0 3 (by decide) (by decide)⟩

/-! ## Wire types (kvs/proto.go, current revision with RequestID) -/

structure BatchOperation where
  Key : List Nat
  Value : String
  IsRead : Bool
  deriving Repr, DecidableEq, Inhabited

structure Batch_Request where
  RequestID : Int
  Data : List BatchOperation
  deriving Repr, DecidableEq

structure Batch_Response where
  Values : List String
  deriving Repr, DecidableEq

/-! ## Sharded KV server (kvs/server/main.go)

Keys are byte sequences (Go iterates over the raw bytes of the key string);
a shard's map is modelled as a function from key to an optional entry. -/

structure KeyValue where
  Value : String
  Expiration : Nat

structure Shard where
  data : List Nat → Option KeyValue

def emptyShard : Shard := { data := fun _ => none }

structure Stats where
  puts : Nat
  gets : Nat

structure KVService where
  shards : List Shard
  replicas : Nat
  stats : Stats

def NewKVService (numShards numReplicas : Nat) : KVService :=
  { shards := List.replicate numShards emptyShard
    replicas := numReplicas
    stats := { puts := 0, gets := 0 } }

/-- FNV-1a 32-bit hash over the key's bytes; uint32 multiplication overflow is the
explicit `% 2^32`, and each byte is reduced `% 256` (Go's byte type). -/
def fnvHash (data : List Nat) : Nat :=
  data.foldl (fun hash b => ((hash ^^^ (b % 256)) * 16777619) % 2 ^ 32) 2166136261

def GetShardIndex (kv : KVService) (key : List Nat) : Nat :=
  fnvHash key % kv.shards.length

/-- Get: read the key's shard; absent, or expired (now strictly after the
expiration), yields ("", false). Accessing the shard list out of range is
modelled with an empty default (Go would panic; with at least one shard the
index is always in range, claim C10). -/
def KVService.Get (now : Nat) (kv : KVService) (key : List Nat) : String × Bool :=
  let shard := kv.shards.getD (GetShardIndex kv key) emptyShard
  match shard.data key with
  | none => ("", false)
  | some item => if now > item.Expiration then ("", false) else (item.Value, true)

/-- Put: overwrite the key's entry in its shard with expiration now + ttl. -/
def KVService.Put (now : Nat) (kv : KVService) (key : List Nat) (value : String)
    (ttl : Nat) : KVService :=
  let shardIndex := GetShardIndex kv key
  let shard := kv.shards.getD shardIndex emptyShard
  let shard' : Shard :=
    { data := fun k => if k = key then some { Value := value, Expiration := now + ttl }
        else shard.data k }
  { kv with shards := kv.shards.set shardIndex shard' }

/-- TTL used by Process_Batch for every write:
time.Duration(100 * float64(time.Millisecond)) = 100ms = 10^8 ns. -/
def writeTTL : Nat := 100000000

/-- The loop body of Process_Batch: operation i observes time (times i);
reads look up via Get and contribute the found value or the empty string at
their position (the response array is allocated zeroed, so writes and misses
leave the empty string), writes Put with the fixed TTL. -/
def processLoop (times : Nat → Nat) (i : Nat) (kv : KVService) :
    List BatchOperation → KVService × List String
  | [] => (kv, [])
  | op :: rest =>
    if op.IsRead then
      let r := KVService.Get (times i) kv op.Key
      let rec' := processLoop times (i + 1) kv rest
      (rec'.1, (if r.2 then r.1 else "") :: rec'.2)
    else
      let kv1 := KVService.Put (times i) kv op.Key op.Value writeTTL
      let rec' := processLoop times (i + 1) kv1 rest
      (rec'.1, "" :: rec'.2)

/-- Process_Batch: bump stats.puts by the whole batch length (uint64 wrap),
then apply the operations in order. -/
def Process_Batch (times : Nat → Nat) (kv : KVService) (req : Batch_Request) :
    KVService × Batch_Response :=
  let kv0 := { kv with stats :=
    { kv.stats with puts := (kv.stats.puts + req.Data.length) % 2 ^ 64 } }
  let r := processLoop times 0 kv0 req.Data
  (r.1, { Values := r.2 })

/-- Store evolution alone: the state after replaying a list of operations
(reads leave the store untouched, writes Put), operation i at time (times i). -/
def applyOps (times : Nat → Nat) (i : Nat) (kv : KVService) :
    List BatchOperation → KVService
  | [] => kv
  | op :: rest =>
    if op.IsRead then applyOps times (i + 1) kv rest
    else applyOps times (i + 1) (KVService.Put (times i) kv op.Key op.Value writeTTL) rest

/-- Number of write operations in a batch. -/
def countWrites (ops : List BatchOperation) : Nat :=
  (ops.filter (fun op => !op.IsRead)).length

/-! ### Shard indexing (claim C10) -/

lemma fnvHash_fold_lt : ∀ (l : List Nat) (acc : Nat), acc < 2 ^ 32 →
    List.foldl (fun hash b => ((hash ^^^ (b % 256)) * 16777619) % 2 ^ 32) acc l < 2 ^ 32 := by
  intro l
  induction l with
  | nil => intro acc h; simpa using h
  | cons b rest ih => intro acc _; exact ih _ (Nat.mod_lt _ (by norm_num))

/-- Claim C10: fnvHash stays below 2^32 (so its conversion to int is
non-negative), GetShardIndex lands in [0, numShards) whenever there is at
least one shard, and NewKVService n r indeed creates n shards. -/
theorem claim_C10 (key : List Nat) (kv : KVService) (n r : Nat)
    (h : 0 < kv.shards.length) :
    fnvHash key < 2 ^ 32 ∧ GetShardIndex kv key < kv.shards.length ∧
      (NewKVService n r).shards.length = n := by
  exact ⟨fnvHash_fold_lt key 2166136261 (by norm_num), Nat.mod_lt _ h,
    by simp [NewKVService]⟩

theorem claim_C10_witness :
    (0 < (NewKVService 3 1).shards.length) ∧
      (fnvHash [104, 105] < 2 ^ 32 ∧
        GetShardIndex (NewKVService 3 1) [104, 105] < (NewKVService 3 1).shards.length ∧
        (NewKVService 4 2).shards.length = 4) :=
  ⟨by decide, claim_C10 [104, 105] (NewKVService 3 1) 4 2 (by decide)⟩

/-! ### Stats accounting (claim C3) -/

lemma put_stats (now : Nat) (kv : KVService) (key : List Nat) (v : String) (ttl : Nat) :
    (KVService.Put now kv key v ttl).stats = kv.stats := rfl

lemma processLoop_stats (times : Nat → Nat) (ops : List BatchOperation) :
    ∀ (i : Nat) (kv : KVService), (processLoop times i kv ops).1.stats = kv.stats := by
  induction ops with
  | nil => intro i kv; rfl
  | cons op rest ih =>
    intro i kv
    by_cases hr : op.IsRead <;> simp [processLoop, hr, ih, KVService.Put]

/-- Claim C3 (amended form): Process_Batch bumps the puts counter by the full
batch length (with uint64 wrap), irrespective of how many operations are
writes. -/
theorem claim_C3_amended (times : Nat → Nat) (kv : KVService) (req : Batch_Request) :
    (Process_Batch times kv req).1.stats.puts =
      (kv.stats.puts + req.Data.length) % 2 ^ 64 := by
  have h := processLoop_stats times req.Data 0
    { kv with stats := { kv.stats with puts := (kv.stats.puts + req.Data.length) % 2 ^ 64 } }
  simpa [Process_Batch] using congrArg Stats.puts h

def c3req : Batch_Request :=
  { RequestID := 0, Data := [{ Key := [97], Value := "", IsRead := true }] }

/-- Claim C3 counterexample: a batch holding one read and no write still
increments stats.puts by 1, not by the batch's write count 0. -/
theorem claim_C3_counterexample :
    (Process_Batch (fun _ => 0) (NewKVService 1 1) c3req).1.stats.puts = 1 ∧
      countWrites c3req.Data = 0 ∧
      (Process_Batch (fun _ => 0) (NewKVService 1 1) c3req).1.stats.puts ≠
        (NewKVService 1 1).stats.puts + countWrites c3req.Data := by
  refine ⟨?_, by decide, ?_⟩ <;> decide

/-! ### Get / Put TTL semantics (claim C2) -/

lemma get_after_put (kv : KVService) (h0 : 0 < kv.shards.length)
    (k : List Nat) (v : String) (ttl t0 t : Nat) :
    KVService.Get t (KVService.Put t0 kv k v ttl) k =
      if t > t0 + ttl then ("", false) else (v, true) := by
  have hlen : (KVService.Put t0 kv k v ttl).shards.length = kv.shards.length := by
    simp [KVService.Put]
  have hidx : GetShardIndex (KVService.Put t0 kv k v ttl) k = GetShardIndex kv k := by
    simp [GetShardIndex, hlen]
  have hlt : GetShardIndex kv k < kv.shards.length := Nat.mod_lt _ h0
  unfold KVService.Get
  rw [hidx]
  have hshard : (KVService.Put t0 kv k v ttl).shards.getD (GetShardIndex kv k) emptyShard =
      { data := fun k' => if k' = k
          then some { Value := v, Expiration := t0 + ttl }
          else (kv.shards.getD (GetShardIndex kv k) emptyShard).data k' } := by
    unfold KVService.Put
    rw [List.getD_eq_getElem?_getD, List.getElem?_set]
    simp [hlt]
  rw [hshard]
  simp

/-- Claim C2: after Put(k, v, ttl) at time t0 with no intervening Put on k, a
Get(k) at time t returns (v, true) while the elapsed time is below ttl and
("", false) once it exceeds ttl; an absent or expired entry reads as not
found. (Get is a pure read in this embedding, mirroring that the Go Get only
takes the shard's read lock and never writes shard.data.) -/
theorem claim_C2 (kv : KVService) (h0 : 0 < kv.shards.length) (k : List Nat)
    (v : String) (ttl t0 t : Nat) (hts : t0 ≤ t) :
    (t - t0 < ttl → KVService.Get t (KVService.Put t0 kv k v ttl) k = (v, true)) ∧
      (t - t0 > ttl → KVService.Get t (KVService.Put t0 kv k v ttl) k = ("", false)) ∧
      (∀ key, (kv.shards.getD (GetShardIndex kv key) emptyShard).data key = none →
        KVService.Get t kv key = ("", false)) ∧
      (∀ key item,
        (kv.shards.getD (GetShardIndex kv key) emptyShard).data key = some item →
        t > item.Expiration → KVService.Get t kv key = ("", false)) := by
  refine ⟨?_, ?_, ?_, ?_⟩
  · intro hlt
    rw [get_after_put kv h0 k v ttl t0 t]
    rw [if_neg (by omega)]
  · intro hgt
    rw [get_after_put kv h0 k v ttl t0 t]
    rw [if_pos (by omega)]
  · intro key hnone
    unfold KVService.Get
    simp only [hnone]
  · intro key item hsome hexp
    unfold KVService.Get
    rw [List.getD_eq_getElem?_getD] at hsome
    simp [hsome, hexp]

theorem claim_C2_witness :
    (0 < (NewKVService 2 1).shards.length ∧ 3 ≤ 10) ∧
      ((10 - 3 < 100 →
        KVService.Get 10 (KVService.Put 3 (NewKVService 2 1) [97] "v" 100) [97] = ("v", true)) ∧
      (10 - 3 > 100 →
        KVService.Get 10 (KVService.Put 3 (NewKVService 2 1) [97] "v" 100) [97] = ("", false)) ∧
      (∀ key, ((NewKVService 2 1).shards.getD (GetShardIndex (NewKVService 2 1) key)
            emptyShard).data key = none →
        KVService.Get 10 (NewKVService 2 1) key = ("", false)) ∧
      (∀ key item, ((NewKVService 2 1).shards.getD (GetShardIndex (NewKVService 2 1) key)
            emptyShard).data key = some item →
        10 > item.Expiration → KVService.Get 10 (NewKVService 2 1) key = ("", false))) :=
  ⟨⟨by decide, by decide⟩, claim_C2 (NewKVService 2 1) (by decide) [97] "v" 100 3 10 (by decide)⟩

/-! ### Batch processing alignment (claim C1) -/

lemma processLoop_length (times : Nat → Nat) (ops : List BatchOperation) :
    ∀ (i : Nat) (kv : KVService), (processLoop times i kv ops).2.length = ops.length := by
  induction ops with
  | nil => intro i kv; rfl
  | cons op rest ih =>
    intro i kv
    by_cases hr : op.IsRead <;> simp [processLoop, hr, ih]

lemma get_shards_only (now : Nat) (key : List Nat) (kv1 kv2 : KVService)
    (h : kv1.shards = kv2.shards) :
    KVService.Get now kv1 key = KVService.Get now kv2 key := by
  unfold KVService.Get GetShardIndex
  rw [h]

lemma put_shards_only (now : Nat) (key : List Nat) (v : String) (ttl : Nat)
    (kv1 kv2 : KVService) (h : kv1.shards = kv2.shards) :
    (KVService.Put now kv1 key v ttl).shards = (KVService.Put now kv2 key v ttl).shards := by
  unfold KVService.Put GetShardIndex
  simp [h]

lemma applyOps_shards_only (times : Nat → Nat) (ops : List BatchOperation) :
    ∀ (i : Nat) (kv1 kv2 : KVService), kv1.shards = kv2.shards →
      (applyOps times i kv1 ops).shards = (applyOps times i kv2 ops).shards := by
  induction ops with
  | nil => intro i kv1 kv2 h; exact h
  | cons op rest ih =>
    intro i kv1 kv2 h
    by_cases hr : op.IsRead
    · simp only [applyOps, hr, if_true]
      exact ih _ _ _ h
    · simp only [applyOps, hr, if_false, Bool.false_eq_true]
      exact ih _ _ _ (put_shards_only _ _ _ _ _ _ h)

lemma processLoop_getD (times : Nat → Nat) (ops : List BatchOperation) :
    ∀ (i : Nat) (kv : KVService) (j : Nat), j < ops.length →
      (processLoop times i kv ops).2.getD j "" =
        (if (ops.getD j default).IsRead then
          (if (KVService.Get (times (i + j)) (applyOps times i kv (ops.take j))
                (ops.getD j default).Key).2 then
            (KVService.Get (times (i + j)) (applyOps times i kv (ops.take j))
                (ops.getD j default).Key).1
          else "")
        else "") := by
  induction ops with
  | nil => intro i kv j hj; simp at hj
  | cons op rest ih =>
    intro i kv j hj
    cases j with
    | zero =>
      by_cases hr : op.IsRead <;> simp [processLoop, applyOps, hr]
    | succ j' =>
      have hj' : j' < rest.length := by simpa using hj
      by_cases hr : op.IsRead
      · have hlhs : (processLoop times i kv (op :: rest)).2.getD (j' + 1) "" =
            (processLoop times (i + 1) kv rest).2.getD j' "" := by
          simp [processLoop, hr]
        rw [hlhs, List.getD_cons_succ, List.take_succ_cons,
          show applyOps times i kv (op :: rest.take j') =
            applyOps times (i + 1) kv (rest.take j') from by simp [applyOps, hr],
          show i + (j' + 1) = (i + 1) + j' from by omega]
        exact ih (i + 1) kv j' hj'
      · have hlhs : (processLoop times i kv (op :: rest)).2.getD (j' + 1) "" =
            (processLoop times (i + 1)
              (KVService.Put (times i) kv op.Key op.Value writeTTL) rest).2.getD j' "" := by
          simp [processLoop, hr]
        rw [hlhs, List.getD_cons_succ, List.take_succ_cons,
          show applyOps times i kv (op :: rest.take j') =
            applyOps times (i + 1) (KVService.Put (times i) kv op.Key op.Value writeTTL)
              (rest.take j') from by simp [applyOps, hr],
          show i + (j' + 1) = (i + 1) + j' from by omega]
        exact ih (i + 1) _ j' hj'

/-- Claim C1: for a batch of N operations, Process_Batch returns exactly N
values, and value i is operation i's read result: the value Get finds in the
store as evolved by the preceding operations when operation i is a read that
hits an unexpired entry, and the empty string for a read miss or a write. -/
theorem claim_C1 (times : Nat → Nat) (kv : KVService) (req : Batch_Request) (i : Nat)
    (hi : i < req.Data.length) :
    (Process_Batch times kv req).2.Values.length = req.Data.length ∧
      (Process_Batch times kv req).2.Values.getD i "" =
        (if (req.Data.getD i default).IsRead then
          (if (KVService.Get (times i) (applyOps times 0 kv (req.Data.take i))
                (req.Data.getD i default).Key).2 then
            (KVService.Get (times i) (applyOps times 0 kv (req.Data.take i))
                (req.Data.getD i default).Key).1
          else "")
        else "") := by
  have hv : (Process_Batch times kv req).2.Values =
      (processLoop times 0
        { kv with stats :=
          { kv.stats with puts := (kv.stats.puts + req.Data.length) % 2 ^ 64 } }
        req.Data).2 := rfl
  constructor
  · rw [hv, processLoop_length]
  · rw [hv, processLoop_getD times req.Data 0 _ i hi]
    have hsh : (applyOps times 0
        { kv with stats :=
          { kv.stats with puts := (kv.stats.puts + req.Data.length) % 2 ^ 64 } }
        (req.Data.take i)).shards =
        (applyOps times 0 kv (req.Data.take i)).shards :=
      applyOps_shards_only times (req.Data.take i) 0 _ _ rfl
    rw [get_shards_only (times (0 + i)) (req.Data.getD i default).Key _ _ hsh,
      show (0 : Nat) + i = i from by omega]

def c1req : Batch_Request :=
  { RequestID := 7,
    Data := [{ Key := [97], Value := "", IsRead := true },
             { Key := [98], Value := "x", IsRead := false },
             { Key := [98], Value := "", IsRead := true }] }

theorem claim_C1_witness :
    (2 < c1req.Data.length) ∧
      ((Process_Batch (fun j => j) (NewKVService 2 1) c1req).2.Values.length =
          c1req.Data.length ∧
        (Process_Batch (fun j => j) (NewKVService 2 1) c1req).2.Values.getD 2 "" =
          (if (c1req.Data.getD 2 default).IsRead then
            (if (KVService.Get ((fun j => j) 2)
                  (applyOps (fun j => j) 0 (NewKVService 2 1) (c1req.Data.take 2))
                  (c1req.Data.getD 2 default).Key).2 then
              (KVService.Get ((fun j => j) 2)
                  (applyOps (fun j => j) 0 (NewKVService 2 1) (c1req.Data.take 2))
                  (c1req.Data.getD 2 default).Key).1
            else "")
          else "")) :=
  ⟨by decide, claim_C1 (fun j => j) (NewKVService 2 1) c1req 2 (by decide)⟩

/-! ## Client retry wrapper (kvs/client/main.go, Send_Synch_Batch) -/

inductive SynchResult where
  | success (values : List String)
  | fatalExit
  deriving Repr, DecidableEq

def maxRetries : Nat := 3

def baseDelayMs : Nat := 100

/-- Retry loop of Send_Synch_Batch from attempt number a on. The transport
is an oracle from attempt number to the response values of a successful
call (none = failed call). Result: the outcome (returned values, or fatal
process termination via log.Fatal), the number of attempts made, and the
backoff sleeps performed, in ms (delay = baseDelay * 2^attempt). -/
def synchFrom (rpc : Nat → Option (List String)) (a : Nat) :
    SynchResult × Nat × List Nat :=
  if _h : a < maxRetries then
    match rpc a with
    | some values => (.success values, 1, [])
    | none =>
      if a < maxRetries - 1 then
        let r := synchFrom rpc (a + 1)
        (r.1, r.2.1 + 1, (baseDelayMs * (1 <<< a)) :: r.2.2)
      else
        (.fatalExit, 1, [])
  else
    (.fatalExit, 0, [])
  termination_by maxRetries - a

def Send_Synch_Batch (rpc : Nat → Option (List String)) :
    SynchResult × Nat × List Nat :=
  synchFrom rpc 0

/-- Claim C7: with an always-failing transport, Send_Synch_Batch makes
exactly 3 attempts, sleeping 100ms then 200ms between them, and ends in
fatal process termination; as soon as an attempt succeeds its values are
returned with no further attempts. -/
theorem claim_C7 (rpc : Nat → Option (List String)) :
    ((∀ i, rpc i = none) →
      Send_Synch_Batch rpc = (.fatalExit, 3, [100, 200])) ∧
      (∀ values, rpc 0 = some values →
        Send_Synch_Batch rpc = (.success values, 1, [])) ∧
      (∀ values, rpc 0 = none → rpc 1 = some values →
        Send_Synch_Batch rpc = (.success values, 2, [100])) ∧
      (∀ values, rpc 0 = none → rpc 1 = none → rpc 2 = some values →
        Send_Synch_Batch rpc = (.success values, 3, [100, 200])) := by
  refine ⟨?_, ?_, ?_, ?_⟩
  · intro h
    unfold Send_Synch_Batch
    rw [synchFrom, h 0]
    rw [synchFrom, h 1]
    rw [synchFrom, h 2]
    simp [maxRetries, baseDelayMs]
  · intro values h0
    unfold Send_Synch_Batch
    rw [synchFrom, h0]
    simp [maxRetries]
  · intro values h0 h1
    unfold Send_Synch_Batch
    rw [synchFrom, h0]
    rw [synchFrom, h1]
    simp [maxRetries, baseDelayMs]
  · intro values h0 h1 h2
    unfold Send_Synch_Batch
    rw [synchFrom, h0]
    rw [synchFrom, h1]
    rw [synchFrom, h2]
    simp [maxRetries, baseDelayMs]

theorem claim_C7_witness :
    ((∀ i : Nat, (fun _ : Nat => (none : Option (List String))) i = none) ∧
      (fun i : Nat => if i = 1 then some ["a"] else (none : Option (List String))) 0 = none ∧
      (fun i : Nat => if i = 1 then some ["a"] else (none : Option (List String))) 1 = some ["a"]) ∧
      Send_Synch_Batch (fun _ => none) = (.fatalExit, 3, [100, 200]) ∧
      Send_Synch_Batch (fun i => if i = 1 then some ["a"] else none) =
        (.success ["a"], 2, [100]) :=
  ⟨⟨fun _ => rfl, by decide, by decide⟩,
    (claim_C7 (fun _ => none)).1 (fun _ => rfl),
    (claim_C7 (fun i => if i = 1 then some ["a"] else none)).2.2.1 ["a"] rfl rfl⟩

/-! ## Request IDs (kvs/client/main.go, generateRequestID) -/

/-- binary.LittleEndian.Uint64: assemble a uint64 from the first 8 bytes,
least significant byte first. -/
def leBytes : Nat → List Nat → Nat
  | 0, _ => 0
  | _ + 1, [] => 0
  | k + 1, b :: rest => b % 256 + 256 * leBytes k rest

def littleEndianUint64 (bytes : List Nat) : Nat := leBytes 8 bytes

/-- generateRequestID: 8 random bytes assembled little-endian and
reinterpreted as a signed int64 (two's complement), exactly as Go's
int64(binary.LittleEndian.Uint64(bytes)) does. -/
def generateRequestID (bytes : List Nat) : Int :=
  let u := littleEndianUint64 bytes
  if u < 2 ^ 63 then (u : Int) else (u : Int) - 2 ^ 64

lemma leBytes_lt : ∀ (k : Nat) (bytes : List Nat), leBytes k bytes < 256 ^ k := by
  intro k
  induction k with
  | zero => intro bytes; simp [leBytes]
  | succ k ih =>
    intro bytes
    cases bytes with
    | nil => simp [leBytes]
    | cons b rest =>
      have hb : b % 256 < 256 := Nat.mod_lt _ (by norm_num)
      have h2 : leBytes k rest + 1 ≤ 256 ^ k := ih rest
      have h3 : 256 * (leBytes k rest + 1) ≤ 256 * 256 ^ k :=
        Nat.mul_le_mul_left _ h2
      show b % 256 + 256 * leBytes k rest < 256 ^ (k + 1)
      rw [pow_succ]
      omega

/-- Claim C8 (amended form): the generated request ID is a signed 64-bit
value, lying in [-2^63, 2^63) but not necessarily non-negative, and the
server ignores it — Process_Batch is insensitive to the RequestID field. -/
theorem claim_C8_amended (bytes : List Nat) (times : Nat → Nat) (kv : KVService)
    (rid1 rid2 : Int) (data : List BatchOperation) :
    (-(2 ^ 63) ≤ generateRequestID bytes ∧ generateRequestID bytes < 2 ^ 63) ∧
      Process_Batch times kv { RequestID := rid1, Data := data } =
        Process_Batch times kv { RequestID := rid2, Data := data } := by
  refine ⟨?_, rfl⟩
  have hu : littleEndianUint64 bytes < 2 ^ 64 := by
    have h8 := leBytes_lt 8 bytes
    have h256 : (256 : Nat) ^ 8 = 2 ^ 64 := by norm_num
    rw [h256] at h8
    exact h8
  unfold generateRequestID
  by_cases hlt : littleEndianUint64 bytes < 2 ^ 63 <;> simp [hlt] <;> omega

/-- Claim C8 counterexample: all-0xFF random bytes give request ID -1, and a
single high bit gives -2^63 — the ID is not a non-negative 63-bit value. -/
theorem claim_C8_counterexample :
    generateRequestID (List.replicate 8 255) = -1 ∧
      generateRequestID (List.replicate 8 255) < 0 ∧
      generateRequestID [0, 0, 0, 0, 0, 0, 0, 128] = -(2 ^ 63) := by
  refine ⟨by decide, by decide, by decide⟩

/-! ## Zipfian generator (kvs/loadgen.go, newZipfianGenerator / Uint64)

float64 arithmetic is idealized as exact rational arithmetic, and math.Pow
is an abstract parameter pow : Rat -> Rat -> Rat, so the theorems below hold
for every pow; the float64 -> uint64 conversion of the final branch is a
floor (clamped at zero, truncation of a non-negative value). -/

structure ZipfianGenerator where
  state : Nat
  n : Nat
  theta : Rat
  alpha : Rat
  zetan : Rat
  eta : Rat

/-- zeta(n, theta): the loop summing 1/pow(i+1, theta) for i = 0..n-1. -/
def zeta (pow : Rat → Rat → Rat) (n : Nat) (theta : Rat) : Rat :=
  (List.range n).foldl (fun (sum : Rat) (i : Nat) => sum + 1 / pow ((i : Rat) + 1) theta) 0

def newZipfianGenerator (pow : Rat → Rat → Rat) (n : Nat) (theta : Rat)
    (genState : Nat) : ZipfianGenerator :=
  let zetan := zeta pow n theta
  { state := genState
    n := n
    theta := theta
    alpha := 1 / (1 - theta)
    zetan := zetan
    eta := (1 - pow (2 / (n : Rat)) (1 - theta)) / (1 - zeta pow 2 theta / zetan) }

/-- float64(x) / float64(^uint64(0)), idealized exactly: x / (2^64 - 1). -/
def zipfU (x : Nat) : Rat := (x : Rat) / ((2 : Rat) ^ 64 - 1)

/-- ZipfianGenerator.Uint64: advance the shared PRNG once, normalize, and
pick the rank by the inverse-CDF branches. -/
def ZipfianGenerator.Uint64 (pow : Rat → Rat → Rat) (g : ZipfianGenerator) :
    Nat × ZipfianGenerator :=
  let x := xorshiftStep g.state
  let g' := { g with state := x }
  let u := zipfU x
  let uz := u * g.zetan
  if uz < 1 then (0, g')
  else if uz < 1 + pow (1 / 2) g.theta then (1, g')
  else ((⌊(g.n : Rat) * pow (g.eta * u - g.eta + 1) g.alpha⌋).toNat, g')

lemma zeta_eq_sum (pow : Rat → Rat → Rat) (theta : Rat) :
    ∀ n, zeta pow n theta = ∑ i ∈ Finset.range n, 1 / pow ((i : Rat) + 1) theta := by
  intro n
  induction n with
  | zero => simp [zeta]
  | succ n ih =>
    rw [Finset.sum_range_succ, ← ih]
    unfold zeta
    rw [List.range_succ, List.foldl_append]
    simp

/-- Claim C4 (amended form): for n ≥ 1 and theta in (0,1), a Zipfian draw
takes one PRNG output x and forms u = x/(2^64-1), which lies in [0,1] — it
reaches 1 exactly when x = 2^64-1, rather than staying inside [0,1) — and
returns 0 when u·zetan < 1, then 1 when u·zetan < 1 + pow(1/2,theta), and
otherwise floor(n · pow(eta·u − eta + 1, alpha)); zetan is the direct sum
of the n reciprocal powers, alpha = 1/(1−theta), and eta is as specified. -/
theorem claim_C4_amended (pow : Rat → Rat → Rat) (n : Nat) (theta : Rat) (s : Nat)
    (_hn : 1 ≤ n) (_h0 : 0 < theta) (_h1 : theta < 1) (hs : s < 2 ^ 64) :
    (newZipfianGenerator pow n theta s).zetan =
        ∑ i ∈ Finset.range n, 1 / pow ((i : Rat) + 1) theta ∧
      (newZipfianGenerator pow n theta s).alpha = 1 / (1 - theta) ∧
      (newZipfianGenerator pow n theta s).eta =
        (1 - pow (2 / (n : Rat)) (1 - theta)) /
          (1 - (∑ i ∈ Finset.range 2, 1 / pow ((i : Rat) + 1) theta) /
            (∑ i ∈ Finset.range n, 1 / pow ((i : Rat) + 1) theta)) ∧
      (0 : Rat) ≤ zipfU (xorshiftStep s) ∧ zipfU (xorshiftStep s) ≤ 1 ∧
      (zipfU (xorshiftStep s) * (newZipfianGenerator pow n theta s).zetan < 1 →
        (ZipfianGenerator.Uint64 pow (newZipfianGenerator pow n theta s)).1 = 0) ∧
      (¬ zipfU (xorshiftStep s) * (newZipfianGenerator pow n theta s).zetan < 1 →
        zipfU (xorshiftStep s) * (newZipfianGenerator pow n theta s).zetan <
            1 + pow (1 / 2) theta →
        (ZipfianGenerator.Uint64 pow (newZipfianGenerator pow n theta s)).1 = 1) ∧
      (¬ zipfU (xorshiftStep s) * (newZipfianGenerator pow n theta s).zetan < 1 →
        ¬ zipfU (xorshiftStep s) * (newZipfianGenerator pow n theta s).zetan <
            1 + pow (1 / 2) theta →
        0 ≤ ⌊(n : Rat) * pow ((newZipfianGenerator pow n theta s).eta *
            zipfU (xorshiftStep s) - (newZipfianGenerator pow n theta s).eta + 1)
            ((newZipfianGenerator pow n theta s).alpha)⌋ →
        ((ZipfianGenerator.Uint64 pow (newZipfianGenerator pow n theta s)).1 : Int) =
          ⌊(n : Rat) * pow ((newZipfianGenerator pow n theta s).eta *
            zipfU (xorshiftStep s) - (newZipfianGenerator pow n theta s).eta + 1)
            ((newZipfianGenerator pow n theta s).alpha)⌋) := by
  have hstate : (newZipfianGenerator pow n theta s).state = s := rfl
  have hzeta : (newZipfianGenerator pow n theta s).zetan = zeta pow n theta := rfl
  have htheta : (newZipfianGenerator pow n theta s).theta = theta := rfl
  have hnn : (newZipfianGenerator pow n theta s).n = n := rfl
  have hxlt : xorshiftStep s < 2 ^ 64 := xorshiftStep_lt hs
  refine ⟨by rw [hzeta]; exact zeta_eq_sum pow theta n, rfl, ?_, ?_, ?_, ?_, ?_, ?_⟩
  · have heta : (newZipfianGenerator pow n theta s).eta =
        (1 - pow (2 / (n : Rat)) (1 - theta)) /
          (1 - zeta pow 2 theta / zeta pow n theta) := rfl
    rw [heta, zeta_eq_sum pow theta 2, zeta_eq_sum pow theta n]
  · unfold zipfU
    positivity
  · unfold zipfU
    rw [div_le_one (by norm_num)]
    have : (xorshiftStep s : Rat) ≤ ((2 ^ 64 - 1 : Nat) : Rat) := by
      exact_mod_cast Nat.le_pred_of_lt hxlt
    calc (xorshiftStep s : Rat) ≤ ((2 ^ 64 - 1 : Nat) : Rat) := this
      _ = (2 : Rat) ^ 64 - 1 := by norm_num
  · intro hlt
    unfold ZipfianGenerator.Uint64
    rw [hstate]
    rw [if_pos hlt]
  · intro hge hlt
    unfold ZipfianGenerator.Uint64
    rw [hstate, htheta]
    rw [if_neg hge, if_pos hlt]
  · intro hge1 hge2 hpos
    unfold ZipfianGenerator.Uint64
    rw [hstate, htheta, hnn]
    rw [if_neg hge1, if_neg hge2]
    exact Int.toNat_of_nonneg hpos

theorem claim_C4_witness :
    ((1 : Nat) ≤ 1 ∧ (0 : Rat) < 1 / 2 ∧ (1 : Rat) / 2 < 1 ∧ (1 : Nat) < 2 ^ 64) ∧
      ((newZipfianGenerator (fun _ _ => 1) 1 (1 / 2) 1).zetan =
          ∑ i ∈ Finset.range 1, 1 / (fun _ _ => (1 : Rat)) ((i : Rat) + 1) (1 / 2) ∧
        (newZipfianGenerator (fun _ _ => 1) 1 (1 / 2) 1).alpha = 1 / (1 - 1 / 2) ∧
        (newZipfianGenerator (fun _ _ => 1) 1 (1 / 2) 1).eta =
          (1 - (fun _ _ => (1 : Rat)) (2 / ((1 : Nat) : Rat)) (1 - 1 / 2)) /
            (1 - (∑ i ∈ Finset.range 2, 1 / (fun _ _ => (1 : Rat)) ((i : Rat) + 1) (1 / 2)) /
              (∑ i ∈ Finset.range 1, 1 / (fun _ _ => (1 : Rat)) ((i : Rat) + 1) (1 / 2))) ∧
        (0 : Rat) ≤ zipfU (xorshiftStep 1) ∧ zipfU (xorshiftStep 1) ≤ 1 ∧
        (zipfU (xorshiftStep 1) * (newZipfianGenerator (fun _ _ => 1) 1 (1 / 2) 1).zetan < 1 →
          (ZipfianGenerator.Uint64 (fun _ _ => 1)
            (newZipfianGenerator (fun _ _ => 1) 1 (1 / 2) 1)).1 = 0) ∧
        (¬ zipfU (xorshiftStep 1) * (newZipfianGenerator (fun _ _ => 1) 1 (1 / 2) 1).zetan < 1 →
          zipfU (xorshiftStep 1) * (newZipfianGenerator (fun _ _ => 1) 1 (1 / 2) 1).zetan <
              1 + (fun _ _ => (1 : Rat)) (1 / 2) (1 / 2) →
          (ZipfianGenerator.Uint64 (fun _ _ => 1)
            (newZipfianGenerator (fun _ _ => 1) 1 (1 / 2) 1)).1 = 1) ∧
        (¬ zipfU (xorshiftStep 1) * (newZipfianGenerator (fun _ _ => 1) 1 (1 / 2) 1).zetan < 1 →
          ¬ zipfU (xorshiftStep 1) * (newZipfianGenerator (fun _ _ => 1) 1 (1 / 2) 1).zetan <
              1 + (fun _ _ => (1 : Rat)) (1 / 2) (1 / 2) →
          0 ≤ ⌊((1 : Nat) : Rat) * (fun _ _ => (1 : Rat))
              ((newZipfianGenerator (fun _ _ => 1) 1 (1 / 2) 1).eta * zipfU (xorshiftStep 1) -
                (newZipfianGenerator (fun _ _ => 1) 1 (1 / 2) 1).eta + 1)
              ((newZipfianGenerator (fun _ _ => 1) 1 (1 / 2) 1).alpha)⌋ →
          ((ZipfianGenerator.Uint64 (fun _ _ => 1)
              (newZipfianGenerator (fun _ _ => 1) 1 (1 / 2) 1)).1 : Int) =
            ⌊((1 : Nat) : Rat) * (fun _ _ => (1 : Rat))
              ((newZipfianGenerator (fun _ _ => 1) 1 (1 / 2) 1).eta * zipfU (xorshiftStep 1) -
                (newZipfianGenerator (fun _ _ => 1) 1 (1 / 2) 1).eta + 1)
              ((newZipfianGenerator (fun _ _ => 1) 1 (1 / 2) 1).alpha)⌋)) :=
  ⟨⟨by norm_num, by norm_num, by norm_num, by norm_num⟩,
    claim_C4_amended (fun _ _ => 1) 1 (1 / 2) 1 (by norm_num) (by norm_num)
      (by norm_num) (by norm_num)⟩

/-- Claim C4 counterexample to u ∈ [0,1): the PRNG state 7650297886450228676
steps to 2^64-1, whose normalization u equals exactly 1, outside [0,1). -/
theorem claim_C4_counterexample :
    zipfU (xorshiftStep 7650297886450228676) = 1 ∧
      ¬ zipfU (xorshiftStep 7650297886450228676) < 1 := by
  have hx : xorshiftStep 7650297886450228676 = 18446744073709551615 := by decide
  have h1 : zipfU (xorshiftStep 7650297886450228676) = 1 := by
    rw [hx]
    unfold zipfU
    norm_num
  exact ⟨h1, by rw [h1]; exact lt_irrefl 1⟩

/-! ## Workload engine (kvs/loadgen.go, NewWorkload / Workload.Next) -/

/-- float64(^uint64(0)): the value 2^64-1 is not representable as a double
and rounds to 2^64 exactly under IEEE round-to-nearest-even. -/
def maxUint64AsFloat : Rat := 2 ^ 64

/-- Go's uint64(f) conversion of a non-negative double as compiled for
amd64: values below 2^63 truncate directly; otherwise the generated code
computes int64(f - 2^63) + 2^63, where an overflowing CVTTSD2SI (argument
at or above 2^63, i.e. f at or above 2^64) yields the indefinite value
-2^63, so the overall result wraps to 0. (Go leaves the out-of-range case
implementation-defined; arm64 saturates to 2^64-1 instead.) -/
def goFloatToUint64 (q : Rat) : Nat :=
  if q < 2 ^ 63 then (⌊q⌋).toNat
  else (((if q - 2 ^ 63 < 2 ^ 63 then ⌊q - 2 ^ 63⌋ else -(2 ^ 63)) + 2 ^ 63).toNat) % 2 ^ 64

/-- The switch on the workload profile name; none models the panic on an
unknown name. The float64 literal 0.95 is idealized as the exact 19/20. -/
def workloadReadProbability : String → Option Rat
  | "YCSB-A" => some (1 / 2)
  | "YCSB-B" => some (19 / 20)
  | "YCSB-C" => some 1
  | _ => none

/-- readThreshold = uint64(float64(readProbability) * float64(^uint64(0))). -/
def workloadReadThreshold (p : Rat) : Nat :=
  goFloatToUint64 (p * maxUint64AsFloat)

structure Workload where
  records : Nat
  recordSize : Nat
  readThreshold : Nat
  keygen : ZipfianGenerator

structure WorkloadOp where
  Key : Nat
  IsRead : Bool
  deriving Repr, DecidableEq

/-- NewWorkload: records and recordSize are the fixed defaults; the single
PRNG state is shared between workload and key generator and lives inside
keygen.state. -/
def NewWorkload (pow : Rat → Rat → Rat) (name : String) (theta : Rat)
    (seed : Nat) : Option Workload :=
  let gen := NewXorshift64 seed
  (workloadReadProbability name).map fun p =>
    { records := 1000000
      recordSize := 100
      readThreshold := workloadReadThreshold p
      keygen := newZipfianGenerator pow 1000000 theta gen.a }

/-- Workload.Next: draw a key from the Zipfian generator (mod records), then
advance the shared PRNG once more and compare against readThreshold to
decide read vs write. -/
def Workload.Next (pow : Rat → Rat → Rat) (w : Workload) : WorkloadOp × Workload :=
  let z := ZipfianGenerator.Uint64 pow w.keygen
  let key := z.1 % w.records
  let x := xorshiftStep z.2.state
  let isRead := decide (x < w.readThreshold)
  ({ Key := key, IsRead := isRead },
    { w with keygen := { z.2 with state := x } })

/-- Claim C6, what the code actually computes: the profile switch maps
YCSB-A to 1/2, YCSB-B to 19/20, YCSB-C to 1, and any other name to the
fatal branch; but the YCSB-C threshold uint64(1.0 * float64(2^64-1))
overflows — the double product is exactly 2^64, the amd64 conversion wraps
it to 0 — so a YCSB-C workload's Next() never yields isRead = true. -/
theorem claim_C6_bug :
    workloadReadProbability "YCSB-A" = some (1 / 2) ∧
      workloadReadProbability "YCSB-B" = some (19 / 20) ∧
      workloadReadProbability "YCSB-C" = some 1 ∧
      (∀ name, name ≠ "YCSB-A" → name ≠ "YCSB-B" → name ≠ "YCSB-C" →
        workloadReadProbability name = none) ∧
      workloadReadThreshold (1 / 2) = 2 ^ 63 ∧
      workloadReadThreshold 1 = 0 ∧
      (∀ pow theta seed,
        ((NewWorkload pow "YCSB-C" theta seed).map fun w => w.readThreshold) = some 0) ∧
      (∀ pow w, w.readThreshold = 0 → ((Workload.Next pow w).1).IsRead = false) := by
  have hthC : workloadReadThreshold 1 = 0 := by
    have h1 : (1 : Rat) * maxUint64AsFloat = 2 ^ 64 := by norm_num [maxUint64AsFloat]
    unfold workloadReadThreshold goFloatToUint64
    rw [h1, if_neg (by norm_num), if_neg (by norm_num)]
    norm_num
  have hthA : workloadReadThreshold (1 / 2) = 2 ^ 63 := by
    have h1 : (1 / 2 : Rat) * maxUint64AsFloat = 2 ^ 63 := by norm_num [maxUint64AsFloat]
    unfold workloadReadThreshold goFloatToUint64
    rw [h1, if_neg (lt_irrefl _), if_pos (by norm_num)]
    norm_num
    decide
  refine ⟨rfl, rfl, rfl, ?_, hthA, hthC, ?_, ?_⟩
  · intro name h1 h2 h3
    unfold workloadReadProbability
    split <;> simp_all
  · intro pow theta seed
    simp [NewWorkload, workloadReadProbability, hthC]
  · intro pow w h
    simp [Workload.Next, h]

def c6w : Workload :=
  { records := 1
    recordSize := 100
    readThreshold := 0
    keygen := { state := 1, n := 1, theta := 1 / 2, alpha := 2, zetan := 1, eta := 1 } }

theorem claim_C6_witness :
    (("foo" : String) ≠ "YCSB-A" ∧ ("foo" : String) ≠ "YCSB-B" ∧
        ("foo" : String) ≠ "YCSB-C" ∧ c6w.readThreshold = 0) ∧
      workloadReadProbability "foo" = none ∧
      ((NewWorkload (fun _ _ => 1) "YCSB-C" (1 / 2) 7).map fun w => w.readThreshold) =
        some 0 ∧
      ((Workload.Next (fun _ _ => 1) c6w).1).IsRead = false := by
  obtain ⟨_, _, _, hunk, _, _, hnew, hnext⟩ := claim_C6_bug
  exact ⟨⟨by decide, by decide, by decide, rfl⟩,
    hunk "foo" (by decide) (by decide) (by decide),
    hnew (fun _ _ => 1) (1 / 2) 7,
    hnext (fun _ _ => 1) c6w rfl⟩
